import Mathlib

/-!
# kratos-transport: broker helpers and the NSQ transport descriptor

A shallow embedding of `broker/utils.go` (`Marshal`, `Unmarshal`, `NewExporter`,
`NewJaegerExporter`, `NewZipkinExporter`, `NewTracerProvider`) and of
`transport/nsq/transport.go` (`Transport`, `headerCarrier`).

Conventions of the embedding:

* a Go `string` is a sequence of bytes, a Go `[]byte` is an optional list of
  bytes whose `none` is the nil slice, a Go `error` result is an optional error
  whose `none` is the nil error;
* a Go function returning `(value, error)` returns both components, as in Go;
* the third-party packages (`encoding.Codec` implementations, `encoding/gob`,
  `uuid`, the jaeger and zipkin exporters) are arguments of the embedded
  functions, so every theorem holds for every behaviour of those packages;
* the tracing SDK is followed where the package hands it a resource:
  `resource.NewSchemaless` builds an attribute set (ordered by key, one value
  per key, the last one winning), and `traceSdk.WithResource` attaches the
  merge of `resource.Environment()` with its argument; the environment
  resource is an argument of `TracerProvider.resource`;
* every embedded function also returns the list of calls it made, in order,
  so that "does not call" is a statement about that list;
* memory reachable through a pointer argument is an explicit heap that is
  passed in and returned.
-/

namespace Go

/-- Go `string`: an immutable sequence of bytes. -/
structure GoString where
  bytes : List UInt8
  deriving DecidableEq, Repr

/-- String literal of the source text; Go source is UTF-8, so the literal holds
the UTF-8 encoding of its characters. -/
def GoString.lit (t : String) : GoString := ⟨t.toUTF8.data.toList⟩

/-- Go `len(s)` on a string: its number of bytes. -/
def GoString.len (s : GoString) : Nat := s.bytes.length

/-- Lexicographic order on byte sequences. -/
def lexLe : List UInt8 → List UInt8 → Bool
  | [], _ => true
  | _ :: _, [] => false
  | a :: l, b :: r => decide (a.toNat < b.toNat) || (decide (a.toNat = b.toNat) && lexLe l r)

/-- Go `a <= b` on strings: byte-wise lexicographic order. -/
def GoString.le (a b : GoString) : Bool := lexLe a.bytes b.bytes

/-- Go `[]byte`; `none` is the nil slice. -/
abbrev GoBytes := Option (List UInt8)

/-- Go conversion `[]byte(s)`: a fresh non-nil slice holding the bytes of `s`. -/
def bytesOfString (s : GoString) : GoBytes := some s.bytes

/-- Go conversion `string(b)`: the string whose bytes are the elements of `b`. -/
def stringOfBytes : GoBytes → GoString
  | none => ⟨[]⟩
  | some l => ⟨l⟩

/-- Go `error` value, identified by the text its `Error()` method reports. -/
structure GoError where
  text : GoString
  deriving DecidableEq, Repr

/-- Go `errors.New`. -/
def errors.New (text : GoString) : GoError := ⟨text⟩

/-- Go interface value (`interface{}`, named `Any` in package `broker`),
distinguished by its dynamic type the way the type switch of `Marshal` does:
the nil interface, a `[]byte`, a `string`, a pointer, or a value of any other
dynamic type (carried by an identifier). -/
inductive Any where
  | nil
  | bytes (b : GoBytes)
  | str (s : GoString)
  | ptr (addr : Nat)
  | other (v : Nat)
  deriving DecidableEq, Repr

/-- Memory reachable through pointers: the value stored at each address. -/
abbrev Heap := Nat → Any

/-- The `encoding.Codec` interface of kratos: `Marshal(v) ([]byte, error)`,
`Unmarshal(data, v) error` (which may write through `v`), `Name() string`. -/
structure Codec where
  Marshal : Any → GoBytes × Option GoError
  Unmarshal : GoBytes → Any → Heap → Option GoError × Heap
  Name : GoString

/-- Go `float64`, carried by its 64-bit IEEE-754 pattern; the code only passes
it on. -/
structure Float64 where
  bits : Fin 18446744073709551616
  deriving DecidableEq, Repr

/-- A `uuid.UUID`: sixteen bytes. -/
abbrev UUID := List UInt8

/-- A constructed `traceSdk.SpanExporter`, identified by a handle. -/
structure SpanExporter where
  handle : Nat
  deriving DecidableEq, Repr

/-- The third-party functions the package calls, with the results they return
during the call under study. -/
structure Lib where
  /-- Call `gob.NewEncoder(&buf).Encode(msg)`: contents of `buf` afterwards, and the error. -/
  gobEncode : Any → GoBytes × Option GoError
  /-- Call `uuid.NewUUID()`. -/
  uuidNewUUID : UUID × Option GoError
  /-- Method `UUID.String()`. -/
  uuidString : UUID → GoString
  /-- Call `jaeger.New(jaeger.WithCollectorEndpoint(jaeger.WithEndpoint(endpoint)))`;
  the exporter is an interface value, `none` when nil. -/
  jaegerNew : GoString → Option SpanExporter × Option GoError
  /-- Call `zipkin.New(endpoint)`. -/
  zipkinNew : GoString → Option SpanExporter × Option GoError

/-- One call made by an embedded function, recorded at the call site. -/
inductive Call where
  | codecMarshal (v : Any)
  | codecUnmarshal (data : GoBytes) (v : Any)
  | gobEncode (e : Any)
  | uuidNewUUID
  | NewExporter (exporterName endpoint : GoString)
  | NewJaegerExporter (endpoint : GoString)
  | NewZipkinExporter (endpoint : GoString)
  | jaegerNew (endpoint : GoString)
  | zipkinNew (endpoint : GoString)
  deriving DecidableEq, Repr

end Go

namespace broker

open Go

/-- What `Marshal` returns: the two Go results and the calls it made. -/
structure MarshalReturn where
  data : GoBytes
  err : Option GoError
  calls : List Call
  deriving DecidableEq, Repr

/-- Function `Marshal` of `broker/utils.go`. -/
def Marshal (lib : Lib) (codec : Option Codec) (msg : Any) : MarshalReturn :=
  if msg = Any.nil then
    ⟨none, some (errors.New (GoString.lit "message is nil")), []⟩
  else
    match codec with
    | some c =>
      match c.Marshal msg with
      | (_, some err) => ⟨none, some err, [Call.codecMarshal msg]⟩
      | (dataBuffer, none) => ⟨dataBuffer, none, [Call.codecMarshal msg]⟩
    | none =>
      match msg with
      | Any.bytes t => ⟨t, none, []⟩
      | Any.str t => ⟨bytesOfString t, none, []⟩
      | _ =>
        match lib.gobEncode msg with
        | (_, some err) => ⟨none, some err, [Call.gobEncode msg]⟩
        | (buf, none) => ⟨buf, none, [Call.gobEncode msg]⟩

/-- What `Unmarshal` leaves behind: the returned error, the heap, the final
value of its own parameter variable `data` (a copy, invisible to the caller),
and the calls it made. -/
structure UnmarshalReturn where
  err : Option GoError
  heap : Heap
  data : Any
  calls : List Call

/-- Function `Unmarshal` of `broker/utils.go`. The assignment `data = buf` of the
no-codec branch rebinds the parameter variable only. -/
def Unmarshal (codec : Option Codec) (buf : GoBytes) (data : Any) (h : Heap) :
    UnmarshalReturn :=
  match codec with
  | some c =>
    match c.Unmarshal buf data h with
    | (some err, h1) => ⟨some err, h1, data, [Call.codecUnmarshal buf data]⟩
    | (none, h1) => ⟨none, h1, data, [Call.codecUnmarshal buf data]⟩
  | none => ⟨none, h, Any.bytes buf, []⟩

/-- What the exporter constructors return: the two Go results and the calls made. -/
structure ExporterReturn where
  exp : Option SpanExporter
  err : Option GoError
  calls : List Call
  deriving DecidableEq, Repr

/-- Function `NewJaegerExporter` of `broker/utils.go`. -/
def NewJaegerExporter (lib : Lib) (endpoint : GoString) : ExporterReturn :=
  ⟨(lib.jaegerNew endpoint).1, (lib.jaegerNew endpoint).2, [Call.jaegerNew endpoint]⟩

/-- Function `NewZipkinExporter` of `broker/utils.go`. -/
def NewZipkinExporter (lib : Lib) (endpoint : GoString) : ExporterReturn :=
  ⟨(lib.zipkinNew endpoint).1, (lib.zipkinNew endpoint).2, [Call.zipkinNew endpoint]⟩

/-- Function `NewExporter` of `broker/utils.go`: a switch on the exporter name. -/
def NewExporter (lib : Lib) (exporterName endpoint : GoString) : ExporterReturn :=
  if exporterName = GoString.lit "jaeger" then
    let r := NewJaegerExporter lib endpoint
    ⟨r.exp, r.err, Call.NewJaegerExporter endpoint :: r.calls⟩
  else if exporterName = GoString.lit "zipkin" then
    let r := NewZipkinExporter lib endpoint
    ⟨r.exp, r.err, Call.NewZipkinExporter endpoint :: r.calls⟩
  else
    ⟨none, some (errors.New (GoString.lit "exporter type not support")), []⟩

/-- Samplers of the tracing SDK, as the expressions the code builds. -/
inductive Sampler where
  | TraceIDRatioBased (fraction : Float64)
  | ParentBased (root : Sampler)
  deriving DecidableEq, Repr

/-- String-valued `attribute.KeyValue`, as built by `Key.String(value)`. -/
structure KeyValue where
  Key : GoString
  Value : GoString
  deriving DecidableEq, Repr

/-- Constant `semConv.ServiceNameKey`. -/
def ServiceNameKey : GoString := GoString.lit "service.name"

/-- Constant `semConv.ServiceInstanceIDKey`. -/
def ServiceInstanceIDKey : GoString := GoString.lit "service.instance.id"

/-- Constant `semConv.ServiceVersionKey`. -/
def ServiceVersionKey : GoString := GoString.lit "service.version"

/-- Method `KeyValue.Valid` of the SDK: the key is non-empty (a string value
always has a valid type). -/
def KeyValue.Valid (kv : KeyValue) : Bool := decide (kv.Key.len > 0)

/-- One value per key, the last one winning: an entry is dropped when a later
entry has its key. -/
def dedupLast : List KeyValue → List KeyValue
  | [] => []
  | kv :: rest =>
    if rest.any (fun x => decide (x.Key = kv.Key)) then dedupLast rest
    else kv :: dedupLast rest

/-- Insertion of an entry into a list ordered by key. -/
def insertByKey (kv : KeyValue) : List KeyValue → List KeyValue
  | [] => [kv]
  | x :: rest =>
    if GoString.le kv.Key x.Key then kv :: x :: rest else x :: insertByKey kv rest

/-- Ordering of a list of entries by key. -/
def sortByKey : List KeyValue → List KeyValue
  | [] => []
  | kv :: rest => insertByKey kv (sortByKey rest)

/-- The attribute set the SDK builds from key-values
(`attribute.NewSetWithFiltered` with the validity filter): one value per key,
the last one winning, ordered by key, invalid entries removed. -/
def NewSet (kvs : List KeyValue) : List KeyValue :=
  (sortByKey (dedupLast kvs)).filter KeyValue.Valid

/-- A `resource.Resource` without schema URL: its attribute set, in the set's
key order. -/
structure Resource where
  attrs : List KeyValue
  deriving DecidableEq, Repr

/-- Function `resource.NewSchemaless(attrs...)` of the SDK: the resource whose
attribute set is built from `attrs`. -/
def NewSchemaless (attrs : List KeyValue) : Resource := ⟨NewSet attrs⟩

/-- Function `resource.Merge(a, b)` of the SDK on resources without schema URL:
the attributes of both, those of `b` winning on a shared key. -/
def Merge (a b : Resource) : Resource := ⟨NewSet (a.attrs ++ b.attrs)⟩

/-- The `traceSdk.TracerProviderOption` values the code builds. -/
inductive TracerProviderOption where
  | WithSampler (s : Sampler)
  | WithResource (r : Resource)
  | WithBatcher (e : Option SpanExporter)
  deriving DecidableEq, Repr

/-- A `*traceSdk.TracerProvider`, as the options it was constructed from
(`traceSdk.NewTracerProvider(opts...)`). -/
structure TracerProvider where
  opts : List TracerProviderOption
  deriving DecidableEq, Repr

/-- The resources passed through `WithResource` among the options of a
provider, in order. -/
def TracerProvider.resources (tp : TracerProvider) : List Resource :=
  tp.opts.filterMap fun o =>
    match o with
    | TracerProviderOption.WithResource r => some r
    | _ => none

/-- The resource attached to a provider, given the resource `environment` that
`resource.Environment()` returns (read from `OTEL_RESOURCE_ATTRIBUTES` and
`OTEL_SERVICE_NAME`): the SDK applies the options in order, and
`WithResource(r)` sets the resource to `Merge(environment, r)`. The result is
`none` when no option sets a resource (the SDK then uses its default one). -/
def TracerProvider.resource (environment : Resource) (tp : TracerProvider) : Option Resource :=
  tp.opts.foldl
    (fun cfg o =>
      match o with
      | TracerProviderOption.WithResource r => some (Merge environment r)
      | _ => cfg)
    none

/-- The samplers among the options of a provider, in order. -/
def TracerProvider.samplers (tp : TracerProvider) : List Sampler :=
  tp.opts.filterMap fun o =>
    match o with
    | TracerProviderOption.WithSampler s => some s
    | _ => none

/-- The exporters attached through `WithBatcher`, in order. -/
def TracerProvider.batchers (tp : TracerProvider) : List (Option SpanExporter) :=
  tp.opts.filterMap fun o =>
    match o with
    | TracerProviderOption.WithBatcher e => some e
    | _ => none

/-- How a call of `NewTracerProvider` ends: it returns a provider, or it
panics with an error value. -/
inductive Outcome where
  | provider (tp : TracerProvider)
  | panicked (err : GoError)
  deriving DecidableEq, Repr

/-- The resource attached to the provider a call ends with, given the
environment resource; `none` when the call panicked. -/
def Outcome.resource (environment : Resource) : Outcome → Option Resource
  | Outcome.provider tp => tp.resource environment
  | Outcome.panicked _ => none

/-- What `NewTracerProvider` does: how it ends and the calls it made. -/
structure ProviderReturn where
  outcome : Outcome
  calls : List Call
  deriving DecidableEq, Repr

/-- Function `NewTracerProvider` of `broker/utils.go`. The error of
`uuid.NewUUID` is discarded, as in the source. -/
def NewTracerProvider (lib : Lib)
    (exporterName endpoint serviceName instanceId version : GoString) (sampler : Float64) :
    ProviderReturn :=
  let calls0 : List Call := if instanceId = GoString.lit "" then [Call.uuidNewUUID] else []
  let instanceId1 : GoString :=
    if instanceId = GoString.lit "" then lib.uuidString lib.uuidNewUUID.1 else instanceId
  let version1 : GoString :=
    if version = GoString.lit "" then GoString.lit "x.x.x" else version
  let opts : List TracerProviderOption :=
    [ TracerProviderOption.WithSampler (Sampler.ParentBased (Sampler.TraceIDRatioBased sampler)),
      TracerProviderOption.WithResource (NewSchemaless
        [ ⟨ServiceNameKey, serviceName⟩,
          ⟨ServiceInstanceIDKey, instanceId1⟩,
          ⟨ServiceVersionKey, version1⟩ ]) ]
  if endpoint.len > 0 then
    let r := NewExporter lib exporterName endpoint
    let calls1 := calls0 ++ Call.NewExporter exporterName endpoint :: r.calls
    match r.err with
    | some err => ⟨Outcome.panicked err, calls1⟩
    | none => ⟨Outcome.provider ⟨opts ++ [TracerProviderOption.WithBatcher r.exp]⟩, calls1⟩
  else
    ⟨Outcome.provider ⟨opts⟩, calls0⟩

end broker

namespace nsq

open Go

/-- Type `headerCarrier` of `transport/nsq/transport.go`: a struct without fields. -/
structure headerCarrier where
  deriving DecidableEq, Repr

/-- Method `headerCarrier.Get`. -/
def headerCarrier.Get (_mc : headerCarrier) (_key : GoString) : GoString := GoString.lit ""

/-- Method `headerCarrier.Set`: an empty body on a value receiver; the carrier
after the call is returned. -/
def headerCarrier.Set (mc : headerCarrier) (_key _value : GoString) : headerCarrier := mc

/-- Method `headerCarrier.Keys`: returns the nil slice. -/
def headerCarrier.Keys (_mc : headerCarrier) : Option (List GoString) := none

/-- Constant `KindNSQ`. -/
def KindNSQ : GoString := GoString.lit "nsq"

/-- Type `Transport` of `transport/nsq/transport.go`; a `selector.Filter` is a
function value, carried by an identifier. -/
structure Transport where
  endpoint : GoString
  operation : GoString
  reqHeader : headerCarrier
  replyHeader : headerCarrier
  filters : Option (List Nat)
  deriving DecidableEq, Repr

/-- Method `Transport.Kind`. -/
def Transport.Kind (_tr : Transport) : GoString := KindNSQ

/-- Method `Transport.Endpoint`. -/
def Transport.Endpoint (tr : Transport) : GoString := tr.endpoint

/-- Method `Transport.Operation`. -/
def Transport.Operation (tr : Transport) : GoString := tr.operation

/-- Method `Transport.RequestHeader`. -/
def Transport.RequestHeader (tr : Transport) : headerCarrier := tr.reqHeader

/-- Method `Transport.ReplyHeader`. -/
def Transport.ReplyHeader (tr : Transport) : headerCarrier := tr.replyHeader

/-- Method `Transport.SelectFilters`. -/
def Transport.SelectFilters (tr : Transport) : Option (List Nat) := tr.filters

/-- A sequence of `Set(key, value)` calls on a carrier, first to last. -/
def headerCarrier.setAll (mc : headerCarrier) (kvs : List (GoString × GoString)) :
    headerCarrier :=
  kvs.foldl (fun c kv => c.Set kv.1 kv.2) mc

end nsq

/-! ## Concrete third-party behaviours, used to instantiate the theorems -/

namespace Sample

open Go

/-- A library whose encoder returns one byte, whose UUID text is `"u-1"`, and
whose exporter constructors succeed. -/
def lib : Lib where
  gobEncode := fun _ => (some [7], none)
  uuidNewUUID := ([], none)
  uuidString := fun _ => GoString.lit "u-1"
  jaegerNew := fun _ => (some ⟨1⟩, none)
  zipkinNew := fun _ => (some ⟨2⟩, none)

/-- The environment resource of a process started with
`OTEL_RESOURCE_ATTRIBUTES=deployment.environment=prod`. -/
def environment : broker.Resource :=
  ⟨[⟨GoString.lit "deployment.environment", GoString.lit "prod"⟩]⟩

/-- A codec that encodes every value as the two bytes `1, 2` and decodes
without touching memory. -/
def codec : Codec where
  Marshal := fun _ => (some [1, 2], none)
  Unmarshal := fun _ _ h => (none, h)
  Name := GoString.lit "fixed"

end Sample

/-! ## Marshal -/

namespace broker

open Go

/-- C1: for every codec argument, absent or present, `Marshal` on the nil
message returns an error (the one with text "message is nil") and the nil byte
slice, and it makes no call at all: neither the codec's `Marshal` nor the
fallback encoder is invoked. -/
theorem Marshal_nil_message (lib : Lib) (codec : Option Codec) :
    (Marshal lib codec Any.nil).data = none ∧
    (Marshal lib codec Any.nil).err = some (errors.New (GoString.lit "message is nil")) ∧
    (Marshal lib codec Any.nil).calls = [] := by
  simp [Marshal]

/-- C2: for every non-nil message, whatever its shape, and every supplied
codec, `Marshal` calls the codec's `Marshal` on the message and nothing else;
when the codec returns bytes `b` and no error, `Marshal` returns exactly `b`
and no error; when the codec returns an error `e`, `Marshal` returns exactly
`e` (and the nil slice). -/
theorem Marshal_codec_delegates (lib : Lib) (c : Codec) (msg : Any) (hmsg : msg ≠ Any.nil) :
    (Marshal lib (some c) msg).calls = [Call.codecMarshal msg] ∧
    (∀ b, c.Marshal msg = (b, none) →
      (Marshal lib (some c) msg).data = b ∧ (Marshal lib (some c) msg).err = none) ∧
    (∀ b e, c.Marshal msg = (b, some e) →
      (Marshal lib (some c) msg).data = none ∧ (Marshal lib (some c) msg).err = some e) := by
  unfold Marshal
  rw [if_neg hmsg]
  refine ⟨?_, ?_, ?_⟩
  · rcases hc : c.Marshal msg with ⟨b, _ | e⟩ <;> simp [hc]
  · intro b hb
    simp [hb]
  · intro b e hb
    simp [hb]

/-- Witness of C2: the string message `"hi"` with the fixed sample codec comes
back as the codec's two bytes. -/
theorem Marshal_codec_delegates_witness :
    Any.str (GoString.lit "hi") ≠ Any.nil ∧
    (Marshal Sample.lib (some Sample.codec) (Any.str (GoString.lit "hi"))).data = some [1, 2] ∧
    (Marshal Sample.lib (some Sample.codec) (Any.str (GoString.lit "hi"))).err = none :=
  ⟨by decide,
   (Marshal_codec_delegates Sample.lib Sample.codec (Any.str (GoString.lit "hi"))
      (by decide)).2.1 (some [1, 2]) rfl⟩

/-- C3: for every byte-slice message `b` (the nil slice included), with no
codec supplied, `Marshal` returns `b` itself, hence the same bytes in the same
order and the same length, with no error and without calling anything. -/
theorem Marshal_bytes_identity (lib : Lib) (b : GoBytes) :
    (Marshal lib none (Any.bytes b)).data = b ∧
    (Marshal lib none (Any.bytes b)).err = none ∧
    (Marshal lib none (Any.bytes b)).calls = [] := by
  simp [Marshal]

/-- C4: for every string message `s`, with no codec supplied, `Marshal`
succeeds and returns the bytes of `s`; converting the returned bytes back to a
string gives `s` again. For a string written as the text `t`, the returned
bytes are the UTF-8 encoding of `t`. -/
theorem Marshal_string_roundtrip (lib : Lib) (s : GoString) (t : String) :
    (Marshal lib none (Any.str s)).err = none ∧
    (Marshal lib none (Any.str s)).data = some s.bytes ∧
    stringOfBytes (Marshal lib none (Any.str s)).data = s ∧
    (Marshal lib none (Any.str (GoString.lit t))).data = some t.toUTF8.data.toList ∧
    stringOfBytes (Marshal lib none (Any.str (GoString.lit t))).data = GoString.lit t := by
  simp [Marshal, bytesOfString, stringOfBytes, GoString.lit]

/-! ## Unmarshal -/

/-- C5: for every byte buffer, every target and every heap, `Unmarshal`
without a codec returns no error, calls nothing and returns the heap it was
given, so whatever the target designates holds the same value after the call
as before; the buffer is stored in the function's own parameter variable only. -/
theorem Unmarshal_no_codec_noop (buf : GoBytes) (data : Any) (h : Heap) :
    (Unmarshal none buf data h).err = none ∧
    (Unmarshal none buf data h).heap = h ∧
    (∀ addr, (Unmarshal none buf data h).heap addr = h addr) ∧
    (Unmarshal none buf data h).calls = [] ∧
    (Unmarshal none buf data h).data = Any.bytes buf := by
  simp [Unmarshal]

/-- C6: for every supplied codec, buffer, target and heap, `Unmarshal` calls
the codec's `Unmarshal` on that buffer and target and nothing else; the error
it returns is exactly the codec's (an error if and only if the codec returns
one, none when the codec succeeds), and the heap is the one the codec leaves. -/
theorem Unmarshal_codec_delegates (c : Codec) (buf : GoBytes) (data : Any) (h : Heap) :
    (Unmarshal (some c) buf data h).err = (c.Unmarshal buf data h).1 ∧
    ((Unmarshal (some c) buf data h).err.isSome ↔ (c.Unmarshal buf data h).1.isSome) ∧
    ((c.Unmarshal buf data h).1 = none → (Unmarshal (some c) buf data h).err = none) ∧
    (Unmarshal (some c) buf data h).heap = (c.Unmarshal buf data h).2 ∧
    (Unmarshal (some c) buf data h).calls = [Call.codecUnmarshal buf data] := by
  unfold Unmarshal
  rcases hc : c.Unmarshal buf data h with ⟨_ | e, h1⟩ <;> simp [hc]

end broker

/-! ## NewExporter and NewTracerProvider -/

namespace broker

open Go

/-- The empty string literal has no bytes. -/
theorem lit_empty_len : (GoString.lit "").len = 0 := by decide

/-- A string other than the empty literal has positive length. -/
theorem len_pos_of_ne_empty (s : GoString) (h : s ≠ GoString.lit "") : s.len > 0 := by
  rcases s with ⟨l⟩
  cases l with
  | nil => exact absurd (by decide) h
  | cons a l => simp [GoString.len]

/-- C7: for every exporter name (also names other than "jaeger" and
"zipkin"), service name, instance id, version and sampling ratio,
`NewTracerProvider` with the empty endpoint does not panic and returns a
provider built from exactly two options, the sampler and the resource; no
exporter is attached through `WithBatcher`, and neither `NewExporter` nor an
exporter constructor is called. -/
theorem NewTracerProvider_empty_endpoint (lib : Lib)
    (exporterName serviceName instanceId version : GoString) (sampler : Float64) :
    ∃ tp : TracerProvider,
      (NewTracerProvider lib exporterName (GoString.lit "") serviceName instanceId version
        sampler).outcome = Outcome.provider tp ∧
      tp.opts =
        [ TracerProviderOption.WithSampler
            (Sampler.ParentBased (Sampler.TraceIDRatioBased sampler)),
          TracerProviderOption.WithResource (NewSchemaless
            [ ⟨ServiceNameKey, serviceName⟩,
              ⟨ServiceInstanceIDKey,
                if instanceId = GoString.lit "" then lib.uuidString lib.uuidNewUUID.1
                else instanceId⟩,
              ⟨ServiceVersionKey,
                if version = GoString.lit "" then GoString.lit "x.x.x" else version⟩ ]) ] ∧
      tp.samplers = [Sampler.ParentBased (Sampler.TraceIDRatioBased sampler)] ∧
      tp.resources.length = 1 ∧
      tp.batchers = [] ∧
      (∀ c ∈ (NewTracerProvider lib exporterName (GoString.lit "") serviceName instanceId
          version sampler).calls, c = Call.uuidNewUUID) := by
  have h0 : ¬ (GoString.lit "").len > 0 := by simp [lit_empty_len]
  unfold NewTracerProvider
  simp only [h0, if_false]
  refine ⟨_, rfl, rfl, rfl, rfl, rfl, ?_⟩
  intro c hc
  by_cases hi : instanceId = GoString.lit ""
  · simpa [hi] using hc
  · simp [hi] at hc

/-- C8: for every exporter name other than exactly "jaeger" and "zipkin" and
every non-empty endpoint, `NewExporter` returns the nil exporter together with
the error "exporter type not support" and constructs nothing, and
`NewTracerProvider` yields no provider: it panics with that same error, having
called `NewExporter` and no exporter constructor. -/
theorem NewTracerProvider_unsupported_exporter (lib : Lib)
    (exporterName endpoint serviceName instanceId version : GoString) (sampler : Float64)
    (hj : exporterName ≠ GoString.lit "jaeger") (hz : exporterName ≠ GoString.lit "zipkin")
    (he : endpoint ≠ GoString.lit "") :
    NewExporter lib exporterName endpoint =
      ⟨none, some (errors.New (GoString.lit "exporter type not support")), []⟩ ∧
    (NewTracerProvider lib exporterName endpoint serviceName instanceId version
      sampler).outcome =
        Outcome.panicked (errors.New (GoString.lit "exporter type not support")) ∧
    (NewExporter lib exporterName endpoint).err.map Outcome.panicked =
      some (NewTracerProvider lib exporterName endpoint serviceName instanceId version
        sampler).outcome ∧
    (∀ tp, (NewTracerProvider lib exporterName endpoint serviceName instanceId version
      sampler).outcome ≠ Outcome.provider tp) ∧
    (∀ e, Call.jaegerNew e ∉ (NewTracerProvider lib exporterName endpoint serviceName
        instanceId version sampler).calls ∧
      Call.zipkinNew e ∉ (NewTracerProvider lib exporterName endpoint serviceName
        instanceId version sampler).calls) := by
  have hx : NewExporter lib exporterName endpoint =
      ⟨none, some (errors.New (GoString.lit "exporter type not support")), []⟩ := by
    simp [NewExporter, hj, hz]
  have hl : endpoint.len > 0 := len_pos_of_ne_empty endpoint he
  have ho : (NewTracerProvider lib exporterName endpoint serviceName instanceId version
      sampler).outcome =
        Outcome.panicked (errors.New (GoString.lit "exporter type not support")) := by
    simp [NewTracerProvider, hl, hx]
  refine ⟨hx, ho, ?_, ?_, ?_⟩
  · rw [ho, hx]
    rfl
  · intro tp
    rw [ho]
    exact fun h => Outcome.noConfusion h
  · intro e
    by_cases hi : instanceId = GoString.lit "" <;>
      simp [NewTracerProvider, hl, hx, hi]

/-- Witness of C8: the exporter name "carrier-pigeon" with the endpoint
"http://x" makes `NewTracerProvider` panic with the unsupported-exporter error. -/
theorem NewTracerProvider_unsupported_exporter_witness :
    GoString.lit "carrier-pigeon" ≠ GoString.lit "jaeger" ∧
    GoString.lit "carrier-pigeon" ≠ GoString.lit "zipkin" ∧
    GoString.lit "http://x" ≠ GoString.lit "" ∧
    (NewTracerProvider Sample.lib (GoString.lit "carrier-pigeon") (GoString.lit "http://x")
      (GoString.lit "svc") (GoString.lit "i-1") (GoString.lit "1.0.0") ⟨0⟩).outcome =
        Outcome.panicked (errors.New (GoString.lit "exporter type not support")) :=
  ⟨by decide, by decide, by decide,
   (NewTracerProvider_unsupported_exporter Sample.lib (GoString.lit "carrier-pigeon")
      (GoString.lit "http://x") (GoString.lit "svc") (GoString.lit "i-1")
      (GoString.lit "1.0.0") ⟨0⟩ (by decide) (by decide) (by decide)).2.1⟩

/-- Membership in a list after an insertion by key. -/
theorem mem_insertByKey (x kv : KeyValue) (l : List KeyValue) :
    x ∈ insertByKey kv l ↔ x = kv ∨ x ∈ l := by
  induction l with
  | nil => simp [insertByKey]
  | cons y rest ih =>
    by_cases h : GoString.le kv.Key y.Key = true
    · simp [insertByKey, h]
    · have hi : insertByKey kv (y :: rest) = y :: insertByKey kv rest := by
        simp [insertByKey, h]
      rw [hi, List.mem_cons, List.mem_cons, ih]
      tauto

/-- Ordering by key keeps the entries. -/
theorem mem_sortByKey (x : KeyValue) (l : List KeyValue) : x ∈ sortByKey l ↔ x ∈ l := by
  induction l with
  | nil => simp [sortByKey]
  | cons y rest ih => simp [sortByKey, mem_insertByKey, ih]

/-- One step of `dedupLast`. -/
theorem dedupLast_cons (a : KeyValue) (l : List KeyValue) :
    dedupLast (a :: l) =
      if l.any (fun y => decide (y.Key = a.Key)) = true then dedupLast l
      else a :: dedupLast l := rfl

/-- Entries that survive in a concatenation: the survivors of the right part,
and the left entries whose key the right part does not have. -/
theorem mem_dedupLast_append (x : KeyValue) (l1 l2 : List KeyValue)
    (h : x ∈ dedupLast (l1 ++ l2)) :
    x ∈ dedupLast l2 ∨ (x ∈ l1 ∧ ∀ y ∈ l2, y.Key ≠ x.Key) := by
  induction l1 with
  | nil => exact Or.inl h
  | cons a rest ih =>
    rw [List.cons_append, dedupLast_cons] at h
    by_cases hany : (rest ++ l2).any (fun y => decide (y.Key = a.Key)) = true
    · rw [if_pos hany] at h
      rcases ih h with h1 | ⟨h1, h2⟩
      · exact Or.inl h1
      · exact Or.inr ⟨List.mem_cons_of_mem _ h1, h2⟩
    · rw [if_neg hany] at h
      rcases List.mem_cons.mp h with h1 | h1
      · subst h1
        refine Or.inr ⟨List.mem_cons_self _ _, ?_⟩
        intro y hy hk
        apply hany
        rw [List.any_eq_true]
        exact ⟨y, List.mem_append_right _ hy, by simpa using hk⟩
      · rcases ih h1 with h2 | ⟨h2, h3⟩
        · exact Or.inl h2
        · exact Or.inr ⟨List.mem_cons_of_mem _ h2, h3⟩

/-- The survivors of the right part survive in a concatenation. -/
theorem mem_dedupLast_append_right (x : KeyValue) (l1 l2 : List KeyValue)
    (h : x ∈ dedupLast l2) : x ∈ dedupLast (l1 ++ l2) := by
  induction l1 with
  | nil => exact h
  | cons a rest ih =>
    rw [List.cons_append, dedupLast_cons]
    by_cases hany : (rest ++ l2).any (fun y => decide (y.Key = a.Key)) = true
    · rw [if_pos hany]
      exact ih
    · rw [if_neg hany]
      exact List.mem_cons_of_mem _ ih

/-- Membership in an attribute set. -/
theorem mem_NewSet (x : KeyValue) (l : List KeyValue) :
    x ∈ NewSet l ↔ x ∈ dedupLast l ∧ x.Key.len > 0 := by
  simp [NewSet, mem_sortByKey, KeyValue.Valid]

/-- The attribute set built from the three service attributes in the order the
code lists them: all three are kept, ordered by key. -/
theorem NewSchemaless_service (n i v : GoString) :
    (NewSchemaless
      [⟨ServiceNameKey, n⟩, ⟨ServiceInstanceIDKey, i⟩, ⟨ServiceVersionKey, v⟩]).attrs =
      [⟨ServiceInstanceIDKey, i⟩, ⟨ServiceNameKey, n⟩, ⟨ServiceVersionKey, v⟩] := by
  rfl

/-- The three service attributes, ordered by key, are an attribute set already. -/
theorem dedupLast_service (n i v : GoString) :
    dedupLast [⟨ServiceInstanceIDKey, i⟩, ⟨ServiceNameKey, n⟩, ⟨ServiceVersionKey, v⟩] =
      [⟨ServiceInstanceIDKey, i⟩, ⟨ServiceNameKey, n⟩, ⟨ServiceVersionKey, v⟩] := by
  rfl

/-- Building the set again from the ordered service attributes changes nothing. -/
theorem NewSet_service (n i v : GoString) :
    NewSet [⟨ServiceInstanceIDKey, i⟩, ⟨ServiceNameKey, n⟩, ⟨ServiceVersionKey, v⟩] =
      [⟨ServiceInstanceIDKey, i⟩, ⟨ServiceNameKey, n⟩, ⟨ServiceVersionKey, v⟩] := by
  rfl

/-- Counterexample to C9 as stated: in a process whose environment resource
holds `deployment.environment=prod`, the provider returned for service "svc",
instance "i-1", version "1.0.0" and the empty endpoint has a resource of four
attributes, not exactly three. -/
theorem NewTracerProvider_resource_not_exactly_three :
    (Outcome.resource Sample.environment
      (NewTracerProvider Sample.lib (GoString.lit "jaeger") (GoString.lit "")
        (GoString.lit "svc") (GoString.lit "i-1") (GoString.lit "1.0.0") ⟨0⟩).outcome) =
      some ⟨[ ⟨GoString.lit "deployment.environment", GoString.lit "prod"⟩,
              ⟨ServiceInstanceIDKey, GoString.lit "i-1"⟩,
              ⟨ServiceNameKey, GoString.lit "svc"⟩,
              ⟨ServiceVersionKey, GoString.lit "1.0.0"⟩ ]⟩ ∧
    (Outcome.resource Sample.environment
      (NewTracerProvider Sample.lib (GoString.lit "jaeger") (GoString.lit "")
        (GoString.lit "svc") (GoString.lit "i-1") (GoString.lit "1.0.0") ⟨0⟩).outcome).map
        (fun r => r.attrs.length) ≠ some 3 := by
  decide

/-- C9, amended: whenever `NewTracerProvider` yields a provider, the code has
passed one resource through `WithResource`, built by `NewSchemaless` from
exactly three attributes: service name with the `serviceName` argument,
service instance id with the `instanceId` argument when that is non-empty and
with the text of the generated UUID only when it is empty, and service version
with the `version` argument when that is non-empty and with "x.x.x" when it is
empty. The resource attached to the provider is the SDK's merge of the
environment resource with that one: it carries these three attributes with
these values, every other attribute of it comes from the environment resource
under another key, and it is exactly the three when the environment resource
is empty. -/
theorem NewTracerProvider_resource (lib : Lib) (environment : Resource)
    (exporterName endpoint serviceName instanceId version : GoString) (sampler : Float64)
    (tp : TracerProvider)
    (hp : (NewTracerProvider lib exporterName endpoint serviceName instanceId version
      sampler).outcome = Outcome.provider tp) :
    (tp.resources.map fun r => r.attrs) =
      [[ ⟨ServiceInstanceIDKey,
           if instanceId = GoString.lit "" then lib.uuidString lib.uuidNewUUID.1
           else instanceId⟩,
         ⟨ServiceNameKey, serviceName⟩,
         ⟨ServiceVersionKey,
           if version = GoString.lit "" then GoString.lit "x.x.x" else version⟩ ]] ∧
    ∃ r : Resource, tp.resource environment = some r ∧
      (⟨ServiceNameKey, serviceName⟩ : KeyValue) ∈ r.attrs ∧
      (⟨ServiceInstanceIDKey,
          if instanceId = GoString.lit "" then lib.uuidString lib.uuidNewUUID.1
          else instanceId⟩ : KeyValue) ∈ r.attrs ∧
      (⟨ServiceVersionKey,
          if version = GoString.lit "" then GoString.lit "x.x.x" else version⟩ : KeyValue)
        ∈ r.attrs ∧
      (∀ x ∈ r.attrs,
        x = ⟨ServiceNameKey, serviceName⟩ ∨
        x = ⟨ServiceInstanceIDKey,
              if instanceId = GoString.lit "" then lib.uuidString lib.uuidNewUUID.1
              else instanceId⟩ ∨
        x = ⟨ServiceVersionKey,
              if version = GoString.lit "" then GoString.lit "x.x.x" else version⟩ ∨
        (x ∈ environment.attrs ∧ x.Key ≠ ServiceNameKey ∧ x.Key ≠ ServiceInstanceIDKey ∧
          x.Key ≠ ServiceVersionKey)) ∧
      (environment.attrs = [] →
        r.attrs =
          [ ⟨ServiceInstanceIDKey,
              if instanceId = GoString.lit "" then lib.uuidString lib.uuidNewUUID.1
              else instanceId⟩,
            ⟨ServiceNameKey, serviceName⟩,
            ⟨ServiceVersionKey,
              if version = GoString.lit "" then GoString.lit "x.x.x" else version⟩ ]) := by
  generalize hi : (if instanceId = GoString.lit "" then lib.uuidString lib.uuidNewUUID.1
    else instanceId) = i
  generalize hv : (if version = GoString.lit "" then GoString.lit "x.x.x" else version) = v
  have hboth : tp.resources =
        [NewSchemaless
          [⟨ServiceNameKey, serviceName⟩, ⟨ServiceInstanceIDKey, i⟩, ⟨ServiceVersionKey, v⟩]] ∧
      tp.resource environment =
        some (Merge environment (NewSchemaless
          [⟨ServiceNameKey, serviceName⟩, ⟨ServiceInstanceIDKey, i⟩,
            ⟨ServiceVersionKey, v⟩])) := by
    unfold NewTracerProvider at hp
    simp only [hi, hv] at hp
    by_cases hl : endpoint.len > 0
    · simp only [hl, if_true] at hp
      cases hr : (NewExporter lib exporterName endpoint).err with
      | some err => simp [hr] at hp
      | none =>
        simp only [hr, Outcome.provider.injEq] at hp
        subst hp
        exact ⟨rfl, rfl⟩
    · simp only [hl, if_false, Outcome.provider.injEq] at hp
      subst hp
      exact ⟨rfl, rfl⟩
  obtain ⟨hres, hatt⟩ := hboth
  have hset : (Merge environment (NewSchemaless
      [⟨ServiceNameKey, serviceName⟩, ⟨ServiceInstanceIDKey, i⟩,
        ⟨ServiceVersionKey, v⟩])).attrs =
      NewSet (environment.attrs ++
        [⟨ServiceInstanceIDKey, i⟩, ⟨ServiceNameKey, serviceName⟩, ⟨ServiceVersionKey, v⟩]) := by
    simp only [Merge, NewSchemaless_service]
  refine ⟨?_, _, hatt, ?_, ?_, ?_, ?_, ?_⟩
  · rw [hres]
    simp only [List.map, NewSchemaless_service]
  · rw [hset, mem_NewSet]
    refine ⟨mem_dedupLast_append_right _ _ _ ?_, (by decide : ServiceNameKey.len > 0)⟩
    rw [dedupLast_service]
    simp
  · rw [hset, mem_NewSet]
    refine ⟨mem_dedupLast_append_right _ _ _ ?_, (by decide : ServiceInstanceIDKey.len > 0)⟩
    rw [dedupLast_service]
    simp
  · rw [hset, mem_NewSet]
    refine ⟨mem_dedupLast_append_right _ _ _ ?_, (by decide : ServiceVersionKey.len > 0)⟩
    rw [dedupLast_service]
    simp
  · intro x hx
    rw [hset, mem_NewSet] at hx
    rcases mem_dedupLast_append _ _ _ hx.1 with h1 | ⟨h1, h2⟩
    · rw [dedupLast_service] at h1
      simp only [List.mem_cons, List.mem_singleton, List.not_mem_nil, or_false] at h1
      tauto
    · refine Or.inr (Or.inr (Or.inr ⟨h1, ?_, ?_, ?_⟩))
      · exact fun hk => h2 ⟨ServiceNameKey, serviceName⟩ (by simp) hk.symm
      · exact fun hk => h2 ⟨ServiceInstanceIDKey, i⟩ (by simp) hk.symm
      · exact fun hk => h2 ⟨ServiceVersionKey, v⟩ (by simp) hk.symm
  · intro he
    rw [hset, he, List.nil_append, NewSet_service]

/-- Witness of C9: with the jaeger exporter constructed by the sample library
and empty instance id and version, the resource passed to the provider holds
the generated identifier, the service name and the version "x.x.x". -/
theorem NewTracerProvider_resource_witness :
    (NewTracerProvider Sample.lib (GoString.lit "jaeger") (GoString.lit "http://x")
      (GoString.lit "svc") (GoString.lit "") (GoString.lit "") ⟨0⟩).outcome =
      Outcome.provider
        ⟨[ TracerProviderOption.WithSampler
             (Sampler.ParentBased (Sampler.TraceIDRatioBased ⟨0⟩)),
           TracerProviderOption.WithResource
             ⟨[ ⟨ServiceInstanceIDKey, GoString.lit "u-1"⟩,
                ⟨ServiceNameKey, GoString.lit "svc"⟩,
                ⟨ServiceVersionKey, GoString.lit "x.x.x"⟩ ]⟩,
           TracerProviderOption.WithBatcher (some ⟨1⟩) ]⟩ ∧
    ((TracerProvider.mk
        [ TracerProviderOption.WithSampler
             (Sampler.ParentBased (Sampler.TraceIDRatioBased ⟨0⟩)),
           TracerProviderOption.WithResource
             ⟨[ ⟨ServiceInstanceIDKey, GoString.lit "u-1"⟩,
                ⟨ServiceNameKey, GoString.lit "svc"⟩,
                ⟨ServiceVersionKey, GoString.lit "x.x.x"⟩ ]⟩,
           TracerProviderOption.WithBatcher (some ⟨1⟩) ]).resources.map fun r => r.attrs) =
      [[ ⟨ServiceInstanceIDKey,
           if GoString.lit "" = GoString.lit "" then
             Sample.lib.uuidString Sample.lib.uuidNewUUID.1
           else GoString.lit ""⟩,
         ⟨ServiceNameKey, GoString.lit "svc"⟩,
         ⟨ServiceVersionKey,
           if GoString.lit "" = GoString.lit "" then GoString.lit "x.x.x"
           else GoString.lit ""⟩ ]] :=
  ⟨by decide,
   (NewTracerProvider_resource Sample.lib Sample.environment (GoString.lit "jaeger")
      (GoString.lit "http://x") (GoString.lit "svc") (GoString.lit "") (GoString.lit "") ⟨0⟩
      _ (by decide)).1⟩

end broker

/-! ## The header carrier of the NSQ transport -/

namespace nsq

open Go

/-- Setting any sequence of pairs leaves the carrier as it was. -/
theorem headerCarrier.setAll_eq (mc : headerCarrier) (kvs : List (GoString × GoString)) :
    mc.setAll kvs = mc := by
  induction kvs generalizing mc with
  | nil => rfl
  | cons kv kvs ih => exact ih mc

/-- C10: the carriers returned by `Transport.RequestHeader` and
`Transport.ReplyHeader` are an empty store on which `Set` has no effect: after
every sequence of `Set(key, value)` calls and for every key `k`, `Get(k)` is
the empty string and `Keys()` is the nil slice, exactly as before the calls,
and the carrier itself is the one before the calls. -/
theorem headerCarrier_noop_store (tr : Transport) (kvs : List (GoString × GoString))
    (k : GoString) :
    ((tr.RequestHeader.setAll kvs).Get k = GoString.lit "" ∧
      ((tr.RequestHeader.setAll kvs).Get k).len = 0 ∧
      (tr.RequestHeader.setAll kvs).Keys = none ∧
      (tr.RequestHeader.setAll kvs).Get k = tr.RequestHeader.Get k ∧
      (tr.RequestHeader.setAll kvs).Keys = tr.RequestHeader.Keys ∧
      tr.RequestHeader.setAll kvs = tr.RequestHeader) ∧
    ((tr.ReplyHeader.setAll kvs).Get k = GoString.lit "" ∧
      ((tr.ReplyHeader.setAll kvs).Get k).len = 0 ∧
      (tr.ReplyHeader.setAll kvs).Keys = none ∧
      (tr.ReplyHeader.setAll kvs).Get k = tr.ReplyHeader.Get k ∧
      (tr.ReplyHeader.setAll kvs).Keys = tr.ReplyHeader.Keys ∧
      tr.ReplyHeader.setAll kvs = tr.ReplyHeader) := by
  have hlen : (GoString.lit "").len = 0 := broker.lit_empty_len
  refine ⟨⟨rfl, hlen, rfl, rfl, rfl, headerCarrier.setAll_eq _ _⟩,
    ⟨rfl, hlen, rfl, rfl, rfl, headerCarrier.setAll_eq _ _⟩⟩

end nsq
